import Mathlib

/-!
Verification development for the scrypt parameter-selection dispatcher
(src/node-boilerplate/scrypt_params.cc).

The C++ file is a thin dispatcher around the external `pickparams` routine.
We embed its functions shallowly:

* JavaScript argument values are modelled by `JSVal` (a number, a function,
  or anything else); JavaScript numbers (C++ `double`) are modelled as
  rationals, which is exact for every comparison and conversion the code
  performs on them.
* `pickparams` and `ScryptErrorDescr` are external collaborators; the
  definitions take them as explicit parameters (a resolver of type
  `Resolver` and a message lookup of type `Int → String`).
* V8 side effects are made explicit: `ThrowException` + return becomes the
  `JSRet.thrown` constructor, the JSON object becomes an association list,
  the uv work queue becomes the `queued` field of `ParamsResult`, and the
  completion callback (`ParamsAsyncAfter`) returns an `AfterEffects` record
  listing the callback invocations, whether `node::FatalException` was
  reached, and whether the baton/request/persistent handle were released.
* The C++ implicit `double`-to-`int` conversion in the `maxmem` branch is
  undefined behaviour when the truncated value does not fit in `int`;
  hardware float-to-int conversions saturate, so we model truncation toward
  zero followed by saturation at the `int` bounds.
-/

namespace NodeScrypt

/-- Model of a JavaScript argument value as seen through the V8 checks the
code performs: a number (with its rational value), a function, or any other
value. -/
inductive JSVal where
  | num (x : ℚ)
  | func
  | other
  deriving DecidableEq, Repr

/-- Embeds `v8::Value::IsFunction`. -/
def JSVal.isFunction : JSVal → Bool
  | .func => true
  | _ => false

/-- Embeds `v8::Value::IsNumber`. -/
def JSVal.isNumber : JSVal → Bool
  | .num _ => true
  | _ => false

/-- Embeds `Local<Number>(v->ToNumber())->Value()`; the code only reads it
after `IsNumber` has succeeded, so the value on non-numbers is irrelevant. -/
def JSVal.toNumber : JSVal → ℚ
  | .num x => x
  | _ => 0

/-- Embeds `const size_t maxmem_default = 0`. -/
def maxmem_default : ℕ := 0

/-- Embeds `const double maxmemfrac_default = 0.5`. -/
def maxmemfrac_default : ℚ := 1/2

/-- Smallest value of the C++ `int` type (32-bit). -/
def intMin : ℤ := -(2^31)

/-- Largest value of the C++ `int` type (32-bit). -/
def intMax : ℤ := 2^31 - 1

/-- Truncation toward zero, the rounding a C++ float-to-integer conversion
performs on in-range values. -/
def truncQ (q : ℚ) : ℤ := if 0 ≤ q then ⌊q⌋ else ⌈q⌉

/-- Model of the implicit C++ `double` → `int` conversion in
`int maxmemArg = ...->Value()`: truncate toward zero, saturating at the
`int` bounds (out-of-range conversion is UB in ISO C++; hardware
conversion instructions saturate). -/
def doubleToInt (q : ℚ) : ℤ := max intMin (min intMax (truncQ q))

/-- The `maxmem` value stored by case 2 of `ValidateArguments` for a numeric
argument with rational value `q`:
`int maxmemArg = value; if (maxmemArg < 0) maxmem = maxmem_default; else
maxmem = (size_t)maxmemArg;`. -/
def maxmemOfArg (q : ℚ) : ℕ :=
  let maxmemArg := doubleToInt q
  if maxmemArg < 0 then maxmem_default else maxmemArg.toNat

/-- The out-parameters of `ValidateArguments` (passed by reference in the
C++, initialised by `Params` to the defaults, `maxtime = 0.0`, and
`callbackPosition = -1`). -/
structure ValState where
  maxmem : ℕ
  maxmemfrac : ℚ
  maxtime : ℚ
  callbackPosition : ℤ
  deriving DecidableEq, Repr

/-- The initial values `Params` gives the out-parameters before calling
`ValidateArguments`. -/
def initialState : ValState :=
  { maxmem := maxmem_default
    maxmemfrac := maxmemfrac_default
    maxtime := 0
    callbackPosition := -1 }

/-- Embeds the `for (int i=0; i < args.Length(); i++)` loop body of
`ValidateArguments`: the remaining arguments are scanned at index `i`
onward, updating the out-parameter state, returning an error message on a
failed check, and stopping as soon as an index `i > 0` holds a function. -/
def validateLoop : List JSVal → ℕ → ValState → Except String ValState
  | [], _, st => .ok st
  | v :: rest, i, st =>
    if 0 < i ∧ v.isFunction then
      .ok { st with callbackPosition := (i : ℤ) }
    else if i = 0 then
      if !v.isNumber then
        .error "maxtime argument must be a number"
      else
        let maxtime := v.toNumber
        if maxtime ≤ 0 then
          .error "maxtime must be greater than 0"
        else
          validateLoop rest (i + 1) { st with maxtime := maxtime }
    else if i = 1 then
      if !v.isNumber then
        .error "max_memfrac argument must be a number"
      else
        let maxmemfrac := v.toNumber
        validateLoop rest (i + 1)
          { st with maxmemfrac :=
              if maxmemfrac ≤ 0 then maxmemfrac_default else maxmemfrac }
    else if i = 2 then
      if !v.isNumber then
        .error "maxmem argument must be a number"
      else
        validateLoop rest (i + 1) { st with maxmem := maxmemOfArg v.toNumber }
    else
      validateLoop rest (i + 1) st

/-- Embeds `ValidateArguments`: the two length/first-argument checks, then
the scanning loop, starting from the out-parameter values `Params`
initialised. Returns the error message on failure, the populated
out-parameters on success. -/
def ValidateArguments (args : List JSVal) : Except String ValState :=
  if args.length = 0 then
    .error "Wrong number of arguments: At least one argument is needed - the maxtime"
  else if 0 < args.length ∧ (args.headD .other).isFunction then
    .error "Wrong number of arguments: At least one argument is needed before the callback - the maxtime"
  else
    validateLoop args 0 initialState

/-- The outcome of `pickparams(maxmem, maxmemfrac, maxtime, &N, &r, &p)`:
the returned error code together with the values written through the three
out-pointers. -/
structure ResolverOut where
  result : ℤ
  N : ℤ
  r : ℕ
  p : ℕ
  deriving DecidableEq, Repr

/-- Type of the external `pickparams` collaborator. -/
def Resolver : Type := ℕ → ℚ → ℚ → ResolverOut

/-- Embeds `createJSONObject`: the V8 object is modelled as its association
list of properties in insertion order. -/
def createJSONObject (N : ℤ) (r p : ℕ) : List (String × ℤ) :=
  [("N", N), ("r", (r : ℤ)), ("p", (p : ℤ))]

/-- The value a native entry point hands back to V8: a thrown exception
(`ThrowException` followed by returning `Undefined`), a plain object, or
`Undefined` without a pending exception. -/
inductive JSRet where
  | thrown (msg : String)
  | obj (fields : List (String × ℤ))
  | undef
  deriving DecidableEq, Repr

/-- Embeds `ParamsSync`: calls the resolver inline and either throws the
looked-up error message or returns the encoded `{N, r, p}` object. -/
def ParamsSync (pick : Resolver) (descr : ℤ → String)
    (maxmem : ℕ) (maxmemfrac maxtime : ℚ) : JSRet :=
  let out := pick maxmem maxmemfrac maxtime
  if out.result ≠ 0 then
    .thrown (descr out.result)
  else
    .obj (createJSONObject out.N out.r out.p)

/-- Embeds `struct Baton`: the persistent callback handle together with the
copied request fields and the outcome fields the worker writes. -/
structure Baton where
  callback : JSVal
  result : ℤ
  maxmem : ℕ
  maxmemfrac : ℚ
  maxtime : ℚ
  N : ℤ
  r : ℕ
  p : ℕ
  deriving DecidableEq, Repr

/-- Embeds `ParamsWork`, the background execution step: calls the resolver
on the copied request fields of the baton and stores the outcome back into
the baton. -/
def ParamsWork (pick : Resolver) (baton : Baton) : Baton :=
  let out := pick baton.maxmem baton.maxmemfrac baton.maxtime
  { baton with result := out.result, N := out.N, r := out.r, p := out.p }

/-- An argument value passed to the JavaScript callback: the error object
built from a message, `Null`, or an `{N, r, p}` object. -/
inductive CbArg where
  | err (msg : String)
  | null
  | obj (fields : List (String × ℤ))
  deriving DecidableEq, Repr

/-- The observable effects of the completion step `ParamsAsyncAfter`:
the argument vectors of the callback invocations in order, whether
`node::FatalException` was invoked, and whether the cleanup block
(`callback.Dispose(); delete baton; delete req;`) ran. -/
structure AfterEffects where
  calls : List (List CbArg)
  fatalReported : Bool
  released : Bool
  deriving DecidableEq, Repr

/-- Embeds `ParamsAsyncAfter`: on a nonzero result, calls the callback with
the single error argument; on success, with `(Null, {N, r, p})`. Either
call is wrapped in a `TryCatch` whose caught exception is forwarded to
`node::FatalException`; the behaviour of the caller-supplied callback is
modelled by the predicate `cbRaises` on the argument vector. The cleanup
block runs after either branch. -/
def ParamsAsyncAfter (descr : ℤ → String) (cbRaises : List CbArg → Bool)
    (baton : Baton) : AfterEffects :=
  if baton.result ≠ 0 then
    let argv := [CbArg.err (descr baton.result)]
    { calls := [argv], fatalReported := cbRaises argv, released := true }
  else
    let argv := [CbArg.null, CbArg.obj (createJSONObject baton.N baton.r baton.p)]
    { calls := [argv], fatalReported := cbRaises argv, released := true }

/-- The caller-visible outcome of one call to the `Params` entry point: the
value returned to the current execution context, and the baton handed to
`uv_queue_work` when the asynchronous branch was taken (`none` otherwise). -/
structure ParamsResult where
  ret : JSRet
  queued : Option Baton
  deriving DecidableEq, Repr

/-- Embeds `Params`, the entry point: validate the arguments (throwing the
validation message on failure), then dispatch on `callbackPosition`: `-1`
runs `ParamsSync` inline, otherwise a baton copying the request and holding
the callback is built and queued, and `Undefined` is returned. -/
def Params (pick : Resolver) (descr : ℤ → String) (args : List JSVal) :
    ParamsResult :=
  match ValidateArguments args with
  | .error validateMessage =>
    { ret := .thrown validateMessage, queued := none }
  | .ok st =>
    if st.callbackPosition = -1 then
      { ret := ParamsSync pick descr st.maxmem st.maxmemfrac st.maxtime
        queued := none }
    else
      let callback := args.getD st.callbackPosition.toNat .other
      let baton : Baton :=
        { callback := callback
          result := 0
          maxmem := st.maxmem
          maxmemfrac := st.maxmemfrac
          maxtime := st.maxtime
          N := 0
          r := 0
          p := 0 }
      { ret := .undef, queued := some baton }

/-! Stub collaborators, used by the concrete witness instances below (the
spec itself suggests exercising the dispatcher against a stub resolver). -/

/-- Stub resolver that always succeeds with the triple `(16384, 8, 1)`. -/
def stubResolver : Resolver := fun _ _ _ => ⟨0, 16384, 8, 1⟩

/-- Stub resolver that always fails with error code `7`. -/
def stubResolverErr : Resolver := fun _ _ _ => ⟨7, 0, 0, 0⟩

/-- Stub error-message lookup. -/
def stubDescr : ℤ → String := fun c => "scrypt error " ++ toString c

/-- Concrete baton holding a successful outcome. -/
def stubBatonOk : Baton := ⟨.func, 0, 0, 1/2, 5, 16384, 8, 1⟩

/-- Concrete baton holding error code `7`. -/
def stubBatonErr : Baton := ⟨.func, 7, 0, 1/2, 5, 0, 0, 0⟩

/-! Helper lemmas about the scanning loop and the dispatcher. -/

/-- At indices three and beyond the loop validates nothing: scanning any
function-free suffix leaves the state untouched and succeeds. -/
lemma validateLoop_skip (rest : List JSVal) : ∀ (n : ℕ) (st : ValState),
    (∀ v ∈ rest, v.isFunction = false) →
    validateLoop rest (n + 3) st = .ok st := by
  induction rest with
  | nil => intro n st _; rfl
  | cons v vs ih =>
    intro n st h
    have hv : v.isFunction = false := h v (by simp)
    simp only [validateLoop, hv, Bool.false_eq_true, and_false, if_false]
    simp only [show n + 3 ≠ 0 by omega, show n + 3 ≠ 1 by omega,
      show n + 3 ≠ 2 by omega, if_false]
    exact ih (n + 1) st fun w hw => h w (by simp [hw])

/-- Scanning from index three onward over function-free values followed by a
function stops at the function and records its position. -/
lemma validateLoop_skip_func (junk : List JSVal) : ∀ (n : ℕ) (st : ValState)
    (rest : List JSVal), (∀ v ∈ junk, v.isFunction = false) →
    validateLoop (junk ++ .func :: rest) (n + 3) st =
      .ok { st with callbackPosition := ((n + 3 + junk.length : ℕ) : ℤ) } := by
  induction junk with
  | nil =>
    intro n st rest _
    simp [validateLoop, JSVal.isFunction]
  | cons v vs ih =>
    intro n st rest h
    have hv : v.isFunction = false := h v (by simp)
    simp only [List.cons_append, validateLoop, hv, Bool.false_eq_true,
      and_false, if_false]
    simp only [show n + 3 ≠ 0 by omega, show n + 3 ≠ 1 by omega,
      show n + 3 ≠ 2 by omega, if_false, List.append_eq,
      show n + 3 + 1 = n + 1 + 3 from by omega]
    rw [ih (n + 1) st rest fun w hw => h w (by simp [hw])]
    congr 2
    simp only [List.length_cons]
    omega

/-- The loop only ever writes `callbackPosition` when it meets a function:
on a function-free argument list a successful scan leaves it unchanged. -/
lemma validateLoop_cbPos (args : List JSVal) : ∀ (i : ℕ) (st st' : ValState),
    (∀ v ∈ args, v.isFunction = false) →
    validateLoop args i st = .ok st' →
    st'.callbackPosition = st.callbackPosition := by
  induction args with
  | nil =>
    intro i st st' _ h
    simp [validateLoop] at h
    simp [← h]
  | cons v vs ih =>
    intro i st st' hfn h
    have hv : v.isFunction = false := hfn v (by simp)
    have hvs : ∀ v ∈ vs, v.isFunction = false := fun w hw => hfn w (by simp [hw])
    simp only [validateLoop, hv, Bool.false_eq_true, and_false, if_false] at h
    split_ifs at h with h0 h1 h2 h3 h4 h5
    all_goals first
      | (exact absurd h (by simp))
      | (exact (ih _ _ _ hvs h).trans (by rfl))

/-- On a validation failure the entry point throws the message and queues
nothing, regardless of the resolver. -/
lemma Params_error {args : List JSVal} {msg : String}
    (pick : Resolver) (descr : ℤ → String)
    (h : ValidateArguments args = .error msg) :
    Params pick descr args = ⟨.thrown msg, none⟩ := by
  simp [Params, h]

/-- On a successful validation with no callback position the entry point
runs the synchronous executor on the validated fields. -/
lemma Params_ok_sync {args : List JSVal} {st : ValState}
    (pick : Resolver) (descr : ℤ → String)
    (h : ValidateArguments args = .ok st) (hc : st.callbackPosition = -1) :
    Params pick descr args =
      ⟨ParamsSync pick descr st.maxmem st.maxmemfrac st.maxtime, none⟩ := by
  simp [Params, h, hc]

/-- On a successful validation with a recorded callback position the entry
point returns `Undefined` and queues a baton copying the validated fields
and holding the argument at the callback position. -/
lemma Params_ok_async {args : List JSVal} {st : ValState}
    (pick : Resolver) (descr : ℤ → String)
    (h : ValidateArguments args = .ok st) (hc : st.callbackPosition ≠ -1) :
    Params pick descr args =
      ⟨.undef, some ⟨args.getD st.callbackPosition.toNat .other, 0,
        st.maxmem, st.maxmemfrac, st.maxtime, 0, 0, 0⟩⟩ := by
  simp [Params, h, hc]

/-- Validating a list headed by a positive number descends into the loop at
index one with `maxtime` recorded. -/
lemma ValidateArguments_num_cons {t : ℚ} (ht : 0 < t) (rest : List JSVal) :
    ValidateArguments (.num t :: rest) =
      validateLoop rest 1 { initialState with maxtime := t } := by
  simp [ValidateArguments, validateLoop, JSVal.isFunction, JSVal.isNumber,
    JSVal.toNumber, ht.not_le]

/-- The loop at index one over a number records `maxmemfrac`, defaulted when
non-positive. -/
lemma validateLoop_one_num (f : ℚ) (rest : List JSVal) (st : ValState) :
    validateLoop (.num f :: rest) 1 st =
      validateLoop rest 2
        { st with maxmemfrac := if f ≤ 0 then maxmemfrac_default else f } := by
  simp [validateLoop, JSVal.isFunction, JSVal.isNumber, JSVal.toNumber]

/-- The loop at index one meeting a function stops and records position 1. -/
lemma validateLoop_one_func (rest : List JSVal) (st : ValState) :
    validateLoop (.func :: rest) 1 st =
      .ok { st with callbackPosition := 1 } := by
  simp [validateLoop, JSVal.isFunction]

/-- The loop at index two over a number records the narrowed `maxmem`. -/
lemma validateLoop_two_num (m : ℚ) (rest : List JSVal) (st : ValState) :
    validateLoop (.num m :: rest) 2 st =
      validateLoop rest 3 { st with maxmem := maxmemOfArg m } := by
  simp [validateLoop, JSVal.isFunction, JSVal.isNumber, JSVal.toNumber]

/-- The loop at index two meeting a function stops and records position 2. -/
lemma validateLoop_two_func (rest : List JSVal) (st : ValState) :
    validateLoop (.func :: rest) 2 st =
      .ok { st with callbackPosition := 2 } := by
  simp [validateLoop, JSVal.isFunction]

/-- Truncation toward zero of an integer-valued rational is the integer. -/
lemma truncQ_intCast (n : ℤ) : truncQ ((n : ℤ) : ℚ) = n := by
  unfold truncQ
  split_ifs with h
  · exact Int.floor_intCast n
  · exact Int.ceil_intCast n

/-- A negative `maxmem` argument is narrowed and then replaced by the
default `0`. -/
lemma maxmemOfArg_neg {m : ℚ} (hm : m < 0) : maxmemOfArg m = 0 := by
  have hceil : ⌈m⌉ ≤ 0 := Int.ceil_le.mpr (by exact_mod_cast hm.le)
  have htr : truncQ m = ⌈m⌉ := if_neg (not_le.mpr hm)
  have hd : doubleToInt m ≤ 0 := by
    rw [doubleToInt, htr]
    exact max_le (by norm_num [intMin]) (le_trans (min_le_right _ _) hceil)
  simp only [maxmemOfArg]
  by_cases h : doubleToInt m < 0
  · simp [h, maxmem_default]
  · simp [h, show doubleToInt m = 0 from le_antisymm hd (not_lt.mp h)]

/-- The narrowed conversion never exceeds the largest `int` value. -/
lemma doubleToInt_le_intMax (q : ℚ) : doubleToInt q ≤ intMax :=
  max_le (by norm_num [intMin, intMax]) (min_le_left _ _)

/-- Loop skipping restated for an arbitrary index at least three. -/
lemma validateLoop_skip' (rest : List JSVal) (i : ℕ) (st : ValState)
    (hi : 3 ≤ i) (h : ∀ v ∈ rest, v.isFunction = false) :
    validateLoop rest i st = .ok st := by
  obtain ⟨n, rfl⟩ : ∃ n, i = n + 3 := ⟨i - 3, by omega⟩
  exact validateLoop_skip rest n st h

/-- Validating a single positive `maxtime` succeeds with both defaults and
no callback position. -/
lemma ValidateArguments_one {t : ℚ} (ht : 0 < t) :
    ValidateArguments [.num t] =
      .ok ⟨maxmem_default, maxmemfrac_default, t, -1⟩ := by
  rw [ValidateArguments_num_cons ht]; rfl

/-- Validating `(maxtime, maxmemfrac)` succeeds with the default-corrected
fraction and no callback position. -/
lemma ValidateArguments_two {t : ℚ} (ht : 0 < t) (f : ℚ) :
    ValidateArguments [.num t, .num f] =
      .ok ⟨maxmem_default, if f ≤ 0 then maxmemfrac_default else f, t, -1⟩ := by
  rw [ValidateArguments_num_cons ht, validateLoop_one_num]; rfl

/-- Validating `(maxtime, maxmemfrac, maxmem)` followed by any
function-free tail succeeds with the narrowed memory bound and no callback
position. -/
lemma ValidateArguments_three {t : ℚ} (ht : 0 < t) (f m : ℚ)
    (rest : List JSVal) (hrest : ∀ v ∈ rest, v.isFunction = false) :
    ValidateArguments (.num t :: .num f :: .num m :: rest) =
      .ok ⟨maxmemOfArg m, if f ≤ 0 then maxmemfrac_default else f, t, -1⟩ := by
  rw [ValidateArguments_num_cons ht, validateLoop_one_num, validateLoop_two_num,
    validateLoop_skip' rest 3 _ (by norm_num) hrest]
  rfl

/-! Claim theorems. -/

/-- C1: an argument list carrying a positive numeric `maxtime`, optionally
followed by numeric `maxmemfrac` and `maxmem`, with no callable, runs
synchronously: the entry point queues nothing and hands the validated triple
to the inline resolver call, returning the encoded `{N, r, p}` object on a
zero result code and throwing the looked-up message otherwise. -/
theorem c1_sync_resolution (pick : Resolver) (descr : ℤ → String)
    (t f m : ℚ) (ht : 0 < t) :
    Params pick descr [.num t] =
      ⟨ParamsSync pick descr maxmem_default maxmemfrac_default t, none⟩ ∧
    Params pick descr [.num t, .num f] =
      ⟨ParamsSync pick descr maxmem_default
        (if f ≤ 0 then maxmemfrac_default else f) t, none⟩ ∧
    Params pick descr [.num t, .num f, .num m] =
      ⟨ParamsSync pick descr (maxmemOfArg m)
        (if f ≤ 0 then maxmemfrac_default else f) t, none⟩ ∧
    ∀ (mm : ℕ) (mf : ℚ),
      ParamsSync pick descr mm mf t =
        if (pick mm mf t).result = 0 then
          .obj (createJSONObject (pick mm mf t).N (pick mm mf t).r
            (pick mm mf t).p)
        else .thrown (descr (pick mm mf t).result) := by
  refine ⟨Params_ok_sync pick descr (ValidateArguments_one ht) rfl,
    Params_ok_sync pick descr (ValidateArguments_two ht f) rfl,
    Params_ok_sync pick descr (ValidateArguments_three ht f m [] (by simp)) rfl,
    fun mm mf => ?_⟩
  simp only [ParamsSync]
  by_cases h : (pick mm mf t).result = 0 <;> simp [h]

/-- Witness for C1 at `maxtime = 5` against the stub resolver. -/
theorem c1_witness :
    (0:ℚ) < 5 ∧
    Params stubResolver stubDescr [.num 5] =
      ⟨ParamsSync stubResolver stubDescr maxmem_default maxmemfrac_default 5,
        none⟩ :=
  ⟨by norm_num,
    (c1_sync_resolution stubResolver stubDescr 5 1 2 (by norm_num)).1⟩

/-- C5: defaults are applied, not rejected — a missing `maxmemfrac` and a
present non-positive one both reach the resolver as `0.5`, and a missing or
negative `maxmem` reaches it as `0`. -/
theorem c5_defaults_not_rejected (pick : Resolver) (descr : ℤ → String)
    (t f m : ℚ) (ht : 0 < t) (hf : f ≤ 0) (hm : m < 0) :
    Params pick descr [.num t] =
      ⟨ParamsSync pick descr 0 (1/2) t, none⟩ ∧
    Params pick descr [.num t, .num f] =
      ⟨ParamsSync pick descr 0 (1/2) t, none⟩ ∧
    Params pick descr [.num t, .num f, .num m] =
      ⟨ParamsSync pick descr 0 (1/2) t, none⟩ := by
  have h2 : ValidateArguments [.num t, .num f] = .ok ⟨0, 1/2, t, -1⟩ := by
    rw [ValidateArguments_two ht f]
    simp [hf, maxmemfrac_default, maxmem_default]
  have h3 : ValidateArguments [.num t, .num f, .num m] =
      .ok ⟨0, 1/2, t, -1⟩ := by
    rw [ValidateArguments_three ht f m [] (by simp)]
    simp [hf, maxmemfrac_default, maxmem_default, maxmemOfArg_neg hm]
  exact ⟨Params_ok_sync pick descr (ValidateArguments_one ht) rfl,
    Params_ok_sync pick descr h2 rfl,
    Params_ok_sync pick descr h3 rfl⟩

/-- Witness for C5 at `(maxtime, maxmemfrac, maxmem) = (5, -3, -1)`. -/
theorem c5_witness :
    (0:ℚ) < 5 ∧ (-3:ℚ) ≤ 0 ∧ (-1:ℚ) < 0 ∧
    Params stubResolver stubDescr [.num 5, .num (-3), .num (-1)] =
      ⟨ParamsSync stubResolver stubDescr 0 (1/2) 5, none⟩ :=
  ⟨by norm_num, by norm_num, by norm_num,
    (c5_defaults_not_rejected stubResolver stubDescr 5 (-3) (-1) (by norm_num)
      (by norm_num) (by norm_num)).2.2⟩

/-- C6: extra non-callable arguments beyond index 2 are ignored entirely —
the call classifies as synchronous, never fails because of them, and
produces the same outcome as without them. -/
theorem c6_trailing_arguments_ignored (pick : Resolver) (descr : ℤ → String)
    (t f m : ℚ) (rest : List JSVal) (ht : 0 < t)
    (hrest : ∀ v ∈ rest, v.isFunction = false) :
    Params pick descr (.num t :: .num f :: .num m :: rest) =
      Params pick descr [.num t, .num f, .num m] ∧
    Params pick descr (.num t :: .num f :: .num m :: rest) =
      ⟨ParamsSync pick descr (maxmemOfArg m)
        (if f ≤ 0 then maxmemfrac_default else f) t, none⟩ := by
  have hr := Params_ok_sync pick descr
    (ValidateArguments_three ht f m rest hrest) rfl
  have h0 := Params_ok_sync pick descr
    (ValidateArguments_three ht f m [] (by simp)) rfl
  exact ⟨hr.trans h0.symm, hr⟩

/-- The argument stored as the continuation is the function the scan
stopped at: indexing a function-free prefix by its length lands on the
function that follows it. -/
lemma getD_append_func (junk rest : List JSVal) :
    (junk ++ .func :: rest).getD junk.length .other = .func := by
  induction junk with
  | nil => rfl
  | cons v vs ih => simpa using ih

/-- Indexing three leading values plus a function-free block by the block
length plus three lands on the function that follows the block. -/
lemma getD_cons3_append (x0 x1 x2 : JSVal) (junk rest : List JSVal) :
    (x0 :: x1 :: x2 :: (junk ++ .func :: rest)).getD
      (junk.length + 3) .other = .func := by
  show (junk ++ .func :: rest).getD junk.length .other = .func
  exact getD_append_func junk rest

/-- Validating `(maxtime, maxmemfrac, maxmem)` followed by a function-free
block and then a function stops at the function and records its index. -/
lemma ValidateArguments_three_func {t : ℚ} (ht : 0 < t) (f m : ℚ)
    (junk rest : List JSVal) (hjunk : ∀ v ∈ junk, v.isFunction = false) :
    ValidateArguments (.num t :: .num f :: .num m :: (junk ++ .func :: rest)) =
      .ok ⟨maxmemOfArg m, if f ≤ 0 then maxmemfrac_default else f, t,
        ((junk.length + 3 : ℕ) : ℤ)⟩ := by
  rw [ValidateArguments_num_cons ht, validateLoop_one_num, validateLoop_two_num]
  refine (validateLoop_skip_func junk 0 _ rest hjunk).trans ?_
  rw [show 0 + 3 + junk.length = junk.length + 3 from by omega]

/-- C3: classification is a single in-order scan — the first callable at an
index above zero becomes the continuation, the mode is asynchronous (the
entry point returns `Undefined` and queues the work unit), everything
beyond the callable is ignored; a scan that finds no callable yields the
synchronous mode. -/
theorem c3_mode_classification (pick : Resolver) (descr : ℤ → String)
    (t f m : ℚ) (junk rest rest' : List JSVal) (args : List JSVal)
    (st : ValState) (ht : 0 < t)
    (hjunk : ∀ v ∈ junk, v.isFunction = false) :
    (ValidateArguments (.num t :: .func :: rest) =
        .ok ⟨maxmem_default, maxmemfrac_default, t, 1⟩ ∧
      Params pick descr (.num t :: .func :: rest) =
        ⟨.undef, some ⟨.func, 0, maxmem_default, maxmemfrac_default, t,
          0, 0, 0⟩⟩ ∧
      Params pick descr (.num t :: .func :: rest) =
        Params pick descr (.num t :: .func :: rest')) ∧
    (ValidateArguments (.num t :: .num f :: .func :: rest) =
        .ok ⟨maxmem_default, if f ≤ 0 then maxmemfrac_default else f, t, 2⟩ ∧
      Params pick descr (.num t :: .num f :: .func :: rest) =
        ⟨.undef, some ⟨.func, 0, maxmem_default,
          if f ≤ 0 then maxmemfrac_default else f, t, 0, 0, 0⟩⟩ ∧
      Params pick descr (.num t :: .num f :: .func :: rest) =
        Params pick descr (.num t :: .num f :: .func :: rest')) ∧
    (ValidateArguments (.num t :: .num f :: .num m :: (junk ++ .func :: rest)) =
        .ok ⟨maxmemOfArg m, if f ≤ 0 then maxmemfrac_default else f, t,
          ((junk.length + 3 : ℕ) : ℤ)⟩ ∧
      Params pick descr (.num t :: .num f :: .num m :: (junk ++ .func :: rest)) =
        ⟨.undef, some ⟨.func, 0, maxmemOfArg m,
          if f ≤ 0 then maxmemfrac_default else f, t, 0, 0, 0⟩⟩ ∧
      Params pick descr (.num t :: .num f :: .num m :: (junk ++ .func :: rest)) =
        Params pick descr
          (.num t :: .num f :: .num m :: (junk ++ .func :: rest'))) ∧
    ((∀ v ∈ args, v.isFunction = false) → ValidateArguments args = .ok st →
      st.callbackPosition = -1 ∧
      Params pick descr args =
        ⟨ParamsSync pick descr st.maxmem st.maxmemfrac st.maxtime, none⟩) := by
  have hval1 : ∀ r : List JSVal, ValidateArguments (.num t :: .func :: r) =
      .ok ⟨maxmem_default, maxmemfrac_default, t, 1⟩ := fun r => by
    rw [ValidateArguments_num_cons ht, validateLoop_one_func]
    rfl
  have hval2 : ∀ r : List JSVal,
      ValidateArguments (.num t :: .num f :: .func :: r) =
      .ok ⟨maxmem_default, if f ≤ 0 then maxmemfrac_default else f, t, 2⟩ :=
    fun r => by
    rw [ValidateArguments_num_cons ht, validateLoop_one_num,
      validateLoop_two_func]
    rfl
  have hp3 : ∀ r : List JSVal,
      Params pick descr (.num t :: .num f :: .num m :: (junk ++ .func :: r)) =
      ⟨.undef, some ⟨.func, 0, maxmemOfArg m,
        if f ≤ 0 then maxmemfrac_default else f, t, 0, 0, 0⟩⟩ := fun r => by
    refine (Params_ok_async pick descr (ValidateArguments_three_func ht f m
      junk r hjunk) (by show ((junk.length + 3 : ℕ) : ℤ) ≠ -1; omega)).trans ?_
    rw [show (((junk.length + 3 : ℕ) : ℤ)).toNat = junk.length + 3 from rfl,
      getD_cons3_append]
  refine ⟨⟨hval1 rest,
      Params_ok_async pick descr (hval1 rest) (by show (1:ℤ) ≠ -1; decide),
      (Params_ok_async pick descr (hval1 rest) (by show (1:ℤ) ≠ -1; decide)).trans
        (Params_ok_async pick descr (hval1 rest')
          (by show (1:ℤ) ≠ -1; decide)).symm⟩,
    ⟨hval2 rest,
      Params_ok_async pick descr (hval2 rest) (by show (2:ℤ) ≠ -1; decide),
      (Params_ok_async pick descr (hval2 rest) (by show (2:ℤ) ≠ -1; decide)).trans
        (Params_ok_async pick descr (hval2 rest')
          (by show (2:ℤ) ≠ -1; decide)).symm⟩,
    ⟨ValidateArguments_three_func ht f m junk rest hjunk,
      hp3 rest, (hp3 rest).trans (hp3 rest').symm⟩,
    fun hnofn hv => ?_⟩
  have hcb : st.callbackPosition = -1 := by
    have hv' := hv
    unfold ValidateArguments at hv'
    split_ifs at hv'
    all_goals first
      | exact absurd hv' (by simp)
      | exact validateLoop_cbPos args 0 initialState st hnofn hv'
  exact ⟨hcb, Params_ok_sync pick descr hv hcb⟩

/-- Witness for C3 at `(maxtime, callback)` with a trailing ignored value. -/
theorem c3_witness :
    (0:ℚ) < 5 ∧
    Params stubResolver stubDescr [.num 5, .func] =
      ⟨.undef, some ⟨.func, 0, maxmem_default, maxmemfrac_default, 5,
        0, 0, 0⟩⟩ ∧
    Params stubResolver stubDescr [.num 5, .func] =
      Params stubResolver stubDescr [.num 5, .func, .other] :=
  ⟨by norm_num,
    (c3_mode_classification stubResolver stubDescr 5 1 2 [] [] [.other] []
      initialState (by norm_num) (by simp)).1.2.1,
    (c3_mode_classification stubResolver stubDescr 5 1 2 [] [] [.other] []
      initialState (by norm_num) (by simp)).1.2.2⟩

/-- Witness for C6: four numeric arguments, no callable, same outcome as
three. -/
theorem c6_witness :
    (0:ℚ) < 5 ∧ (∀ v ∈ [JSVal.num 9], v.isFunction = false) ∧
    Params stubResolver stubDescr [.num 5, .num 1, .num 2, .num 9] =
      Params stubResolver stubDescr [.num 5, .num 1, .num 2] :=
  ⟨by norm_num, by decide,
    (c6_trailing_arguments_ignored stubResolver stubDescr 5 1 2 [JSVal.num 9]
      (by norm_num) (by decide)).1⟩

/-- C2: for every completed asynchronous work unit the completion step
invokes the stored continuation exactly once; on resolver failure with the
single error argument built from the error-code lookup, on success with
`(Null, {N, r, p})` encoding the resolver triple. -/
theorem c2_continuation_invoked_exactly_once (descr : ℤ → String)
    (cbRaises : List CbArg → Bool) (baton : Baton) :
    (ParamsAsyncAfter descr cbRaises baton).calls.length = 1 ∧
    (baton.result ≠ 0 →
      (ParamsAsyncAfter descr cbRaises baton).calls =
        [[CbArg.err (descr baton.result)]]) ∧
    (baton.result = 0 →
      (ParamsAsyncAfter descr cbRaises baton).calls =
        [[CbArg.null, CbArg.obj (createJSONObject baton.N baton.r baton.p)]]) := by
  unfold ParamsAsyncAfter
  split_ifs with h
  · exact ⟨rfl, fun _ => rfl, fun h0 => absurd h0 h⟩
  · exact ⟨rfl, fun hne => absurd (not_not.mp h) hne, fun _ => rfl⟩

/-- Witness for C2 at a concrete failed baton. -/
theorem c2_witness :
    stubBatonErr.result ≠ 0 ∧
    (ParamsAsyncAfter stubDescr (fun _ => false) stubBatonErr).calls =
      [[CbArg.err (stubDescr stubBatonErr.result)]] :=
  ⟨by decide,
    (c2_continuation_invoked_exactly_once stubDescr (fun _ => false)
      stubBatonErr).2.1 (by decide)⟩

/-- C7: on every completion path — resolver success, resolver error, and a
continuation that itself raises — the work unit is released immediately
after the single continuation invocation, and an exception raised by the
continuation is forwarded to the fatal-exception channel instead of being
swallowed or skipping the release. -/
theorem c7_completion_releases_work_unit (descr : ℤ → String)
    (cbRaises : List CbArg → Bool) (baton : Baton) :
    (ParamsAsyncAfter descr cbRaises baton).released = true ∧
    ∃ argv, (ParamsAsyncAfter descr cbRaises baton).calls = [argv] ∧
      (ParamsAsyncAfter descr cbRaises baton).fatalReported = cbRaises argv := by
  unfold ParamsAsyncAfter
  split_ifs with h
  · exact ⟨rfl, _, rfl, rfl⟩
  · exact ⟨rfl, _, rfl, rfl⟩

/-- C8: the result encoder builds exactly the three properties `N`, `r`,
`p` with the given values, inserted in that order, and both the synchronous
executor and the asynchronous completion step encode their caller-visible
result through it. -/
theorem c8_result_encoder_shared (N : ℤ) (r p : ℕ) (pick : Resolver)
    (descr : ℤ → String) (maxmem : ℕ) (maxmemfrac maxtime : ℚ)
    (cbRaises : List CbArg → Bool) (baton : Baton) :
    createJSONObject N r p = [("N", N), ("r", (r : ℤ)), ("p", (p : ℤ))] ∧
    (createJSONObject N r p).map Prod.fst = ["N", "r", "p"] ∧
    ((pick maxmem maxmemfrac maxtime).result = 0 →
      ParamsSync pick descr maxmem maxmemfrac maxtime =
        .obj (createJSONObject (pick maxmem maxmemfrac maxtime).N
          (pick maxmem maxmemfrac maxtime).r
          (pick maxmem maxmemfrac maxtime).p)) ∧
    (baton.result = 0 →
      (ParamsAsyncAfter descr cbRaises baton).calls =
        [[CbArg.null, CbArg.obj (createJSONObject baton.N baton.r baton.p)]]) := by
  refine ⟨rfl, rfl, fun h => ?_, fun h => ?_⟩
  · simp [ParamsSync, h]
  · simp [ParamsAsyncAfter, h]

/-- Witness for C8 at the stub resolver and a concrete successful baton. -/
theorem c8_witness :
    (stubResolver 0 maxmemfrac_default 5).result = 0 ∧
    stubBatonOk.result = 0 ∧
    ParamsSync stubResolver stubDescr 0 maxmemfrac_default 5 =
      .obj (createJSONObject (stubResolver 0 maxmemfrac_default 5).N
        (stubResolver 0 maxmemfrac_default 5).r
        (stubResolver 0 maxmemfrac_default 5).p) ∧
    (ParamsAsyncAfter stubDescr (fun _ => false) stubBatonOk).calls =
      [[CbArg.null,
        CbArg.obj (createJSONObject stubBatonOk.N stubBatonOk.r stubBatonOk.p)]] :=
  ⟨rfl, rfl,
    (c8_result_encoder_shared 0 0 0 stubResolver stubDescr 0 maxmemfrac_default
      5 (fun _ => false) stubBatonOk).2.2.1 rfl,
    (c8_result_encoder_shared 0 0 0 stubResolver stubDescr 0 maxmemfrac_default
      5 (fun _ => false) stubBatonOk).2.2.2 rfl⟩

/-- A first argument that is not a positive number makes validation fail
with the corresponding message. -/
lemma ValidateArguments_head_fail (v0 : JSVal) (rest : List JSVal)
    (h : v0.isNumber = false ∨ ∃ u : ℚ, v0 = .num u ∧ u ≤ 0) :
    ∃ msg, ValidateArguments (v0 :: rest) = .error msg := by
  cases v0 with
  | func =>
    exact ⟨"Wrong number of arguments: At least one argument is needed before the callback - the maxtime",
      by simp [ValidateArguments, JSVal.isFunction]⟩
  | other =>
    exact ⟨"maxtime argument must be a number",
      by simp [ValidateArguments, validateLoop, JSVal.isFunction,
        JSVal.isNumber]⟩
  | num u =>
    rcases h with h | ⟨u', hu', hle⟩
    · simp [JSVal.isNumber] at h
    · obtain rfl : u = u' := by injection hu'
      exact ⟨"maxtime must be greater than 0",
        by simp [ValidateArguments, validateLoop, JSVal.isFunction,
          JSVal.isNumber, JSVal.toNumber, hle]⟩

/-- A non-numeric, non-callable value at index 1 makes validation fail. -/
lemma ValidateArguments_one_fail {t : ℚ} (ht : 0 < t) (v1 : JSVal)
    (h1n : v1.isNumber = false) (h1f : v1.isFunction = false)
    (rest : List JSVal) :
    ValidateArguments (.num t :: v1 :: rest) =
      .error "max_memfrac argument must be a number" := by
  rw [ValidateArguments_num_cons ht]
  cases v1 with
  | num u => simp [JSVal.isNumber] at h1n
  | func => simp [JSVal.isFunction] at h1f
  | other => simp [validateLoop, JSVal.isFunction, JSVal.isNumber]

/-- A non-numeric, non-callable value at index 2 makes validation fail. -/
lemma ValidateArguments_two_fail {t : ℚ} (ht : 0 < t) (f : ℚ) (v2 : JSVal)
    (h2n : v2.isNumber = false) (h2f : v2.isFunction = false)
    (rest : List JSVal) :
    ValidateArguments (.num t :: .num f :: v2 :: rest) =
      .error "maxmem argument must be a number" := by
  rw [ValidateArguments_num_cons ht, validateLoop_one_num]
  cases v2 with
  | num u => simp [JSVal.isNumber] at h2n
  | func => simp [JSVal.isFunction] at h2f
  | other => simp [validateLoop, JSVal.isFunction, JSVal.isNumber]

/-- C4: every validation failure — empty list, callable first, non-numeric
value at index 0, 1 or 2 before any callable, or non-positive `maxtime` —
throws synchronously in the current execution context, never invokes the
resolver (the outcome is invariant under changing it), and never queues
background work or reaches a continuation. -/
theorem c4_validation_fails_synchronously (pick pick' : Resolver)
    (descr : ℤ → String) (args : List JSVal)
    (hbad : args = [] ∨
      (args.headD .other).isFunction = true ∨
      (∃ v, args[0]? = some v ∧ v.isNumber = false) ∨
      (∃ u : ℚ, args[0]? = some (.num u) ∧ u ≤ 0) ∨
      (∃ v, args[1]? = some v ∧ v.isNumber = false ∧ v.isFunction = false) ∨
      (∃ v₁ v₂, args[1]? = some v₁ ∧ v₁.isFunction = false ∧
        args[2]? = some v₂ ∧ v₂.isNumber = false ∧ v₂.isFunction = false)) :
    ∃ msg, Params pick descr args = ⟨.thrown msg, none⟩ ∧
      Params pick' descr args = ⟨.thrown msg, none⟩ := by
  suffices h : ∃ msg, ValidateArguments args = .error msg by
    obtain ⟨msg, hmsg⟩ := h
    exact ⟨msg, Params_error pick descr hmsg, Params_error pick' descr hmsg⟩
  rcases hbad with rfl | hh | ⟨v, hv, hvn⟩ | ⟨u, hu, hle⟩ | ⟨v, hv, hvn, hvf⟩ |
    ⟨v₁, v₂, hv1, h1f, hv2, h2n, h2f⟩
  · exact ⟨"Wrong number of arguments: At least one argument is needed - the maxtime", rfl⟩
  · rcases args with _ | ⟨v0, rest⟩
    · simp [JSVal.isFunction] at hh
    · simp only [List.headD_cons] at hh
      cases v0 with
      | func =>
        exact ⟨"Wrong number of arguments: At least one argument is needed before the callback - the maxtime",
          by simp [ValidateArguments, JSVal.isFunction]⟩
      | num u => simp [JSVal.isFunction] at hh
      | other => simp [JSVal.isFunction] at hh
  · rcases args with _ | ⟨v0, rest⟩
    · simp at hv
    · obtain rfl : v0 = v := by simpa using hv
      exact ValidateArguments_head_fail v0 rest (Or.inl hvn)
  · rcases args with _ | ⟨v0, rest⟩
    · simp at hu
    · obtain rfl : v0 = .num u := by simpa using hu
      exact ValidateArguments_head_fail (.num u) rest (Or.inr ⟨u, rfl, hle⟩)
  · rcases args with _ | ⟨v0, _ | ⟨v1, rest⟩⟩
    · simp at hv
    · simp at hv
    · obtain rfl : v1 = v := by simpa using hv
      cases v0 with
      | func =>
        exact ⟨"Wrong number of arguments: At least one argument is needed before the callback - the maxtime",
          by simp [ValidateArguments, JSVal.isFunction]⟩
      | other => exact ValidateArguments_head_fail .other _ (Or.inl rfl)
      | num u =>
        by_cases hle : u ≤ 0
        · exact ValidateArguments_head_fail (.num u) _ (Or.inr ⟨u, rfl, hle⟩)
        · exact ⟨_, ValidateArguments_one_fail (not_le.mp hle) v1 hvn hvf rest⟩
  · rcases args with _ | ⟨v0, _ | ⟨w1, _ | ⟨w2, rest⟩⟩⟩
    · simp at hv2
    · simp at hv2
    · simp at hv2
    · obtain rfl : w1 = v₁ := by simpa using hv1
      obtain rfl : w2 = v₂ := by simpa using hv2
      cases v0 with
      | func =>
        exact ⟨"Wrong number of arguments: At least one argument is needed before the callback - the maxtime",
          by simp [ValidateArguments, JSVal.isFunction]⟩
      | other => exact ValidateArguments_head_fail .other _ (Or.inl rfl)
      | num u =>
        by_cases hle : u ≤ 0
        · exact ValidateArguments_head_fail (.num u) _ (Or.inr ⟨u, rfl, hle⟩)
        · cases w1 with
          | func => simp [JSVal.isFunction] at h1f
          | other =>
            exact ⟨_, ValidateArguments_one_fail (not_le.mp hle) .other rfl rfl
              (w2 :: rest)⟩
          | num g =>
            exact ⟨_, ValidateArguments_two_fail (not_le.mp hle) g w2 h2n h2f
              rest⟩

/-- Witness for C4 at the single argument `maxtime = 0`. -/
theorem c4_witness :
    (∃ u : ℚ, ([JSVal.num 0])[0]? = some (.num u) ∧ u ≤ 0) ∧
    ∃ msg, Params stubResolver stubDescr [.num 0] = ⟨.thrown msg, none⟩ ∧
      Params stubResolverErr stubDescr [.num 0] = ⟨.thrown msg, none⟩ :=
  ⟨⟨0, rfl, le_refl 0⟩,
    c4_validation_fails_synchronously stubResolver stubResolverErr stubDescr
      [.num 0]
      (Or.inr (Or.inr (Or.inr (Or.inl ⟨0, rfl, le_refl 0⟩))))⟩

/-- The narrowed conversion result is never above the largest `int`. -/
lemma maxmemOfArg_le_intMax (q : ℚ) : (maxmemOfArg q : ℤ) ≤ intMax := by
  simp only [maxmemOfArg]
  by_cases h : doubleToInt q < 0
  · rw [if_pos h]
    norm_num [maxmem_default, intMax]
  · rw [if_neg h, Int.toNat_of_nonneg (not_lt.mp h)]
    exact doubleToInt_le_intMax q

/-- On non-negative in-range values the narrowing is exactly the floor. -/
lemma maxmemOfArg_floor {m : ℚ} (h0 : 0 ≤ m) (h1 : m ≤ (intMax : ℚ)) :
    (maxmemOfArg m : ℤ) = ⌊m⌋ := by
  have hfl0 : (0:ℤ) ≤ ⌊m⌋ := Int.le_floor.mpr (by exact_mod_cast h0)
  have hfl1 : ⌊m⌋ ≤ intMax := by
    have h2 := Int.floor_mono h1
    rwa [Int.floor_intCast] at h2
  have htr : truncQ m = ⌊m⌋ := if_pos h0
  simp only [maxmemOfArg, doubleToInt, htr]
  rw [min_eq_right hfl1,
    max_eq_right (le_trans (show intMin ≤ 0 by norm_num [intMin]) hfl0),
    if_neg (not_lt.mpr hfl0)]
  exact Int.toNat_of_nonneg hfl0

/-- A natural number within the `int` range is narrowed to itself. -/
lemma maxmemOfArg_natCast {k : ℕ} (hk : (k : ℤ) ≤ intMax) :
    maxmemOfArg ((k : ℕ) : ℚ) = k := by
  have h0 : (0:ℤ) ≤ (k:ℤ) := by exact_mod_cast Nat.zero_le k
  have htr : truncQ ((k : ℕ) : ℚ) = (k : ℤ) := by
    rw [show ((k : ℕ) : ℚ) = (((k : ℤ)) : ℚ) by push_cast; ring]
    exact truncQ_intCast _
  simp only [maxmemOfArg, doubleToInt, htr]
  rw [min_eq_right hk,
    max_eq_right (le_trans (show intMin ≤ 0 by norm_num [intMin]) h0),
    if_neg (not_lt.mpr h0)]
  omega

/-- C10: the `maxmem` argument is narrowed through a signed `int` before
widening to the unsigned size type — the validated `maxmem` is exactly the
narrowing of the supplied rational: the fractional part is truncated on
in-range non-negative values, and the value reaches the resolver unchanged
precisely when it is a non-negative integer within the signed 32-bit
range. -/
theorem c10_maxmem_narrowed_through_int (m : ℚ) (st : ValState)
    (h : ValidateArguments [.num 1, .num 1, .num m] = .ok st) :
    st.maxmem = maxmemOfArg m ∧
    (0 ≤ m → m ≤ (intMax : ℚ) → (st.maxmem : ℤ) = ⌊m⌋) ∧
    ((st.maxmem : ℚ) = m ↔ ∃ k : ℕ, (k : ℚ) = m ∧ (k : ℤ) ≤ intMax) := by
  have hval : ValidateArguments [.num 1, .num 1, .num m] =
      .ok ⟨maxmemOfArg m, 1, 1, -1⟩ := by
    rw [ValidateArguments_three (by norm_num) 1 m [] (by simp)]
    norm_num
  rw [h] at hval
  obtain rfl : st = ⟨maxmemOfArg m, 1, 1, -1⟩ := Except.ok.inj hval
  refine ⟨rfl, fun h0 h1 => maxmemOfArg_floor h0 h1, ?_⟩
  constructor
  · intro he
    exact ⟨maxmemOfArg m, he, maxmemOfArg_le_intMax m⟩
  · rintro ⟨k, hk, hkb⟩
    rw [← hk]
    exact_mod_cast congrArg (fun n : ℕ => ((n : ℕ) : ℚ)) (maxmemOfArg_natCast hkb)

/-- Witness for C10 at `maxmem = 2^31`, one above the largest `int`. -/
theorem c10_witness :
    ValidateArguments [.num 1, .num 1, .num ((2:ℚ)^31)] =
      .ok ⟨2^31 - 1, 1, 1, -1⟩ ∧
    ((2^31 - 1 : ℕ) : ℚ) ≠ (2:ℚ)^31 ∧
    (⟨2^31 - 1, 1, 1, -1⟩ : ValState).maxmem = maxmemOfArg ((2:ℚ)^31) := by
  have hmm : maxmemOfArg ((2:ℚ)^31) = 2^31 - 1 := by
    rw [maxmemOfArg, doubleToInt,
      show ((2:ℚ)^31) = (((2^31 : ℤ)) : ℚ) by norm_num, truncQ_intCast]
    norm_num [intMax, intMin]
    decide
  have hval : ValidateArguments [.num 1, .num 1, .num ((2:ℚ)^31)] =
      .ok ⟨2^31 - 1, 1, 1, -1⟩ := by
    rw [ValidateArguments_three (by norm_num) 1 _ [] (by simp), hmm]
    norm_num
  refine ⟨hval, by norm_num, ?_⟩
  exact (c10_maxmem_narrowed_through_int ((2:ℚ)^31) ⟨2^31 - 1, 1, 1, -1⟩
    hval).1

/-- C9: the background execution step writes only the outcome fields of the
baton (`result`, `N`, `r`, `p`), copying them from the resolver applied to
the copied request fields; the stored continuation and the request fields
are left untouched, and the outcome does not depend on the continuation. -/
theorem c9_work_writes_only_outcome (pick : Resolver) (baton : Baton) :
    (ParamsWork pick baton).callback = baton.callback ∧
    (ParamsWork pick baton).maxmem = baton.maxmem ∧
    (ParamsWork pick baton).maxmemfrac = baton.maxmemfrac ∧
    (ParamsWork pick baton).maxtime = baton.maxtime ∧
    (ParamsWork pick baton).result =
      (pick baton.maxmem baton.maxmemfrac baton.maxtime).result ∧
    (ParamsWork pick baton).N =
      (pick baton.maxmem baton.maxmemfrac baton.maxtime).N ∧
    (ParamsWork pick baton).r =
      (pick baton.maxmem baton.maxmemfrac baton.maxtime).r ∧
    (ParamsWork pick baton).p =
      (pick baton.maxmem baton.maxmemfrac baton.maxtime).p ∧
    (∀ cb, ParamsWork pick { baton with callback := cb } =
      { ParamsWork pick baton with callback := cb }) :=
  ⟨rfl, rfl, rfl, rfl, rfl, rfl, rfl, rfl, fun _ => rfl⟩

end NodeScrypt
